import Mathlib

/-!
Verification of the numeric core of the repository
`somwrks/Implemented-Research-Papers` ("Attention Is All You Need"
notebook): the sinusoidal positional encoding, the transformer model
wiring around it, and the spec-level scaled dot-product attention.

The embedding follows `src/Deep Learning/Attention_is_All_You_Need/main.ipynb`:

* `div_term`, `peEntry` — the table computed in `PositionalEncoding.__init__`:
  `div_term = exp(arange(0, d_model, 2) * (-log(10000)/d_model))`,
  `pe[:, 0::2] = sin(position * div_term)`, `pe[:, 1::2] = cos(position * div_term)`.
* `PEModule`, `peInit`, `PEModule.forwardS` — the module with its stored
  buffer and `forward(x) = x + self.pe[:x.size(0), :]` (the stored `pe` has
  shape `(max_len, 1, d_model)`, so addition broadcasts over batch, and over
  sequence positions exactly when PyTorch broadcasting rules allow).
* `initErr`, `PositionalEncoding.initE` — the runtime outcome of
  `__init__(d_model, max_len)` including the framework errors its tensor
  operations raise (negative sizes, division by zero in the scalar
  `-log(10000)/d_model`, and the shape mismatch of the `1::2` assignment).
* `TransformerModel` — the model that always builds its positional encoder
  with the default `max_len = 5000`.
* `softmax`, `scaledDotProductAttention` — modelled from the spec (the
  notebook delegates attention to `nn.TransformerEncoderLayer`, which is
  framework code not under src/).

Machine floats are modelled by real numbers; "no NaN/Inf" claims become
boundedness of every entry.
-/

namespace AttentionMath

/-- The scaling factor tensor from the source line
`div_term = torch.exp(torch.arange(0, d_model, 2).float() * (-math.log(10000.0) / d_model))`:
entry `i` holds `exp(2*i * (-log 10000 / d_model))`. -/
noncomputable def div_term (d_model i : ℕ) : ℝ :=
  Real.exp ((2 * (i : ℝ)) * (-Real.log 10000 / (d_model : ℝ)))

/-- Entry `[p, j]` of the positional-encoding table built in
`PositionalEncoding.__init__`: even columns `j = 2i` hold
`sin(position[p] * div_term[i])`, odd columns `j = 2i+1` hold
`cos(position[p] * div_term[i])`. -/
noncomputable def peEntry (d_model p j : ℕ) : ℝ :=
  if j % 2 = 0 then Real.sin ((p : ℝ) * div_term d_model (j / 2))
  else Real.cos ((p : ℝ) * div_term d_model (j / 2))

/-- The `PositionalEncoding` module state: configuration plus the stored
(`register_buffer`) table. -/
structure PEModule where
  d_model : ℕ
  max_len : ℕ
  pe : ℕ → ℕ → ℝ

/-- Result of a successful `PositionalEncoding.__init__(d_model, max_len)`:
the stored buffer is the sinusoidal table. -/
noncomputable def peInit (d_model max_len : ℕ) : PEModule :=
  ⟨d_model, max_len, fun p j => peEntry d_model p j⟩

/-- `PositionalEncoding.forward(x) = x + self.pe[:x.size(0), :]`, with the
module state threaded through explicitly: the method body never assigns to
`self`, so the returned state is the incoming one.  The stored `pe` has
shape `(max_len, 1, d_model)`; `x` has shape `(L, B, d_model)`.  The slice
`pe[:L]` has `min L max_len` rows, and PyTorch broadcasting makes the
addition defined iff that equals `L`, or equals `1` (in which case row 0 is
broadcast to every position). -/
noncomputable def PEModule.forwardS (M : PEModule) (L B : ℕ)
    (x : Fin L → Fin B → Fin M.d_model → ℝ) :
    PEModule × Option (Fin L → Fin B → Fin M.d_model → ℝ) :=
  (M,
    if min L M.max_len = L then
      some (fun p b j => x p b j + M.pe (p : ℕ) (j : ℕ))
    else if min L M.max_len = 1 then
      some (fun p b j => x p b j + M.pe 0 (j : ℕ))
    else none)

lemma div_term_eq_rpow (d_model i : ℕ) :
    div_term d_model i =
      (10000 : ℝ) ^ (-((2 * (i : ℝ)) / (d_model : ℝ))) := by
  rw [div_term, Real.rpow_def_of_pos (by norm_num)]
  congr 1
  ring

lemma angle_eq (d_model i p : ℕ) :
    (p : ℝ) * div_term d_model i =
      (p : ℝ) / (10000 : ℝ) ^ ((2 * (i : ℝ)) / (d_model : ℝ)) := by
  rw [div_term_eq_rpow, Real.rpow_neg (by norm_num)]
  ring

/-- C1: for every `max_length > 0` and even `model_dimension > 0`, the table
built at construction satisfies, for `p < max_length` and
`i < model_dimension / 2`:
`table[p, 2i] = sin(p / 10000^(2i / d))` and
`table[p, 2i+1] = cos(p / 10000^(2i / d))`. -/
theorem peInit_table_closed_form (max_len d_model : ℕ)
    (hm : 0 < max_len) (hd : 0 < d_model) (he : d_model % 2 = 0)
    (p i : ℕ) (hp : p < max_len) (hi : i < d_model / 2) :
    (peInit d_model max_len).pe p (2 * i) =
        Real.sin ((p : ℝ) / (10000 : ℝ) ^ ((2 * (i : ℝ)) / (d_model : ℝ))) ∧
      (peInit d_model max_len).pe p (2 * i + 1) =
        Real.cos ((p : ℝ) / (10000 : ℝ) ^ ((2 * (i : ℝ)) / (d_model : ℝ))) := by
  constructor
  · show peEntry d_model p (2 * i) = _
    rw [peEntry]
    have h2 : (2 * i) % 2 = 0 := by omega
    have h3 : (2 * i) / 2 = i := by omega
    rw [if_pos h2, h3, angle_eq]
  · show peEntry d_model p (2 * i + 1) = _
    rw [peEntry]
    have h2 : ¬((2 * i + 1) % 2 = 0) := by omega
    have h3 : (2 * i + 1) / 2 = i := by omega
    rw [if_neg h2, h3, angle_eq]

/-- Concrete instance of `peInit_table_closed_form` at
`max_len = 3`, `d_model = 4`, `p = 1`, `i = 1`. -/
theorem peInit_table_closed_form_witness :
    (peInit 4 3).pe 1 (2 * 1) =
        Real.sin ((1 : ℝ) / (10000 : ℝ) ^ ((2 * (1 : ℝ)) / (4 : ℝ))) ∧
      (peInit 4 3).pe 1 (2 * 1 + 1) =
        Real.cos ((1 : ℝ) / (10000 : ℝ) ^ ((2 * (1 : ℝ)) / (4 : ℝ))) := by
  have h := peInit_table_closed_form 3 4 (by norm_num) (by norm_num)
    (by norm_num) 1 1 (by norm_num) (by norm_num)
  simpa using h

/-- C2: for an input of sequence length `L ≤ max_len`, `forward` returns the
input plus the table truncated to its first `L` rows, added elementwise.
The result has the type (shape) of `x`: `Fin L → Fin B → Fin d_model → ℝ`. -/
theorem forwardS_adds_truncated_table (d_model max_len L B : ℕ)
    (x : Fin L → Fin B → Fin d_model → ℝ) (hL : L ≤ max_len) :
    ((peInit d_model max_len).forwardS L B x).2 =
      some (fun p b j => x p b j + peEntry d_model (p : ℕ) (j : ℕ)) := by
  show (if min L max_len = L then _ else _) = _
  rw [if_pos (Nat.min_eq_left hL)]
  rfl

/-- Concrete instance of `forwardS_adds_truncated_table` at
`d_model = 2`, `max_len = 5`, `L = 1`, `B = 1`, `x = 0`. -/
theorem forwardS_adds_truncated_table_witness :
    ((peInit 2 5).forwardS 1 1 (fun _ _ _ => (0 : ℝ))).2 =
      some (fun (p : Fin 1) (_ : Fin 1) (j : Fin 2) =>
        (0 : ℝ) + peEntry 2 (p : ℕ) (j : ℕ)) :=
  forwardS_adds_truncated_table 2 5 1 1 (fun _ _ _ => (0 : ℝ)) (by norm_num)

/-- C3: the encoding added by `forward` is a pure function of the
configuration alone.  For any input `x` (of admissible length), the additive
signal `forward(x) - x` at position `p`, batch `b`, column `j` equals
`peEntry d_model p j`, a value depending only on `(d_model, p, j)` — never on
the content of `x`; hence two modules built from identical
`(max_length, model_dimension)` add identical tables on every forward pass. -/
theorem forwardS_signal_input_independent (d_model max_len L B : ℕ)
    (x : Fin L → Fin B → Fin d_model → ℝ) (hL : L ≤ max_len) :
    ∃ fx, ((peInit d_model max_len).forwardS L B x).2 = some fx ∧
      ∀ p b j, fx p b j - x p b j = peEntry d_model (p : ℕ) (j : ℕ) := by
  refine ⟨_, forwardS_adds_truncated_table d_model max_len L B x hL, ?_⟩
  intro p b j
  ring

/-- Concrete instance of `forwardS_signal_input_independent` at
`d_model = 2`, `max_len = 5`, `L = 2`, `B = 1`, `x = 7` everywhere. -/
theorem forwardS_signal_input_independent_witness :
    ∃ fx, ((peInit 2 5).forwardS 2 1 (fun _ _ _ => (7 : ℝ))).2 = some fx ∧
      ∀ p b j, fx p b j - (7 : ℝ) = peEntry 2 (p : ℕ) (j : ℕ) :=
  forwardS_signal_input_independent 2 5 2 1 (fun _ _ _ => (7 : ℝ)) (by norm_num)

/-- C8: `forward` never mutates the module: the state it returns is the
incoming state, so the stored table after any call — and after any chain of
calls — is the table computed at construction. -/
theorem forwardS_state_unchanged (M : PEModule) (L B : ℕ)
    (x : Fin L → Fin B → Fin M.d_model → ℝ) :
    (M.forwardS L B x).1 = M ∧
      ∀ (L2 B2 : ℕ) (y : Fin L2 → Fin B2 → Fin M.d_model → ℝ),
        (((M.forwardS L B x).1).forwardS L2 B2 y).1.pe = M.pe :=
  ⟨rfl, fun _ _ _ => rfl⟩

/-- The framework errors that the tensor operations inside
`PositionalEncoding.__init__` can raise at runtime.  The notebook defines no
error of its own (in particular no `InvalidDimension`). -/
inductive PEInitError where
  | negativeSize : PEInitError
  | zeroDivision : PEInitError
  | shapeMismatch : PEInitError
deriving DecidableEq, Repr

/-- The runtime outcome of `PositionalEncoding.__init__(d_model, max_len)`,
checked in the order the source lines execute:
`torch.zeros(max_len, d_model)` raises on a negative size; the scalar
`-math.log(10000.0) / d_model` raises `ZeroDivisionError` when
`d_model = 0`; the assignment `pe[:, 1::2] = torch.cos(position * div_term)`
writes a `(max_len, ceil(d/2))` tensor into a `(max_len, floor(d/2))` slice,
which broadcasts only when the column counts agree (even `d_model`) or the
source has a single broadcastable column (`d_model = 1`, a no-op into an
empty slice), and raises a shape mismatch for odd `d_model ≥ 3`.
Note `max_len = 0` and `d_model = 0`-free degenerate cases succeed with an
empty table. -/
def initErr (d_model max_len : ℤ) : Option PEInitError :=
  if max_len < 0 ∨ d_model < 0 then some .negativeSize
  else if d_model = 0 then some .zeroDivision
  else if d_model % 2 = 1 ∧ d_model ≠ 1 then some .shapeMismatch
  else none

/-- `PositionalEncoding.__init__` as a fallible constructor: either one of
the framework errors above, or the module holding the sinusoidal table. -/
noncomputable def PositionalEncoding.initE (d_model max_len : ℤ) :
    Except PEInitError PEModule :=
  match initErr d_model max_len with
  | some e => .error e
  | none => .ok (peInit d_model.toNat max_len.toNat)

/-- C4 counterexample: the claim says construction fails whenever
`max_length` is non-positive, but at `d_model = 2`, `max_len = 0` the code
raises nothing — `torch.zeros(0, 2)` and the empty slice assignments all
succeed, yielding an empty table. -/
theorem initErr_succeeds_at_zero_max_len : initErr 2 0 = none := by decide

/-- C4 amended: the code never raises a dedicated `InvalidDimension` error;
construction fails (with framework errors) iff `max_len < 0`, or
`d_model < 0`, or `d_model = 0`, or `d_model` is odd and ≥ 3.  In
particular it succeeds for every even positive `d_model` with
non-negative `max_len` (and also for `d_model = 1`). -/
theorem initErr_iff (d_model max_len : ℤ) :
    ((initErr d_model max_len).isSome = true ↔
      (max_len < 0 ∨ d_model < 0 ∨ d_model = 0 ∨
        (d_model % 2 = 1 ∧ 3 ≤ d_model))) ∧
    (d_model % 2 = 0 → 0 < d_model → 0 ≤ max_len →
      ∃ M, PositionalEncoding.initE d_model max_len = .ok M) := by
  constructor
  · rw [initErr]
    split_ifs with h1 h2 h3
    · simp only [Option.isSome_some, true_iff]
      omega
    · simp only [Option.isSome_some, true_iff]
      omega
    · simp only [Option.isSome_some, true_iff]
      omega
    · simp only [Option.isSome_none, Bool.false_eq_true, false_iff]
      push_neg
      omega
  · intro he hd hm
    refine ⟨peInit d_model.toNat max_len.toNat, ?_⟩
    rw [PositionalEncoding.initE]
    have : initErr d_model max_len = none := by
      rw [initErr]
      rw [if_neg (by omega), if_neg (by omega), if_neg (by omega)]
    rw [this]

/-- Concrete instance of `initErr_iff` at `d_model = 6`, `max_len = 10`:
an even positive dimension with positive length constructs successfully. -/
theorem initErr_iff_witness :
    ∃ M, PositionalEncoding.initE 6 10 = .ok M :=
  (initErr_iff 6 10).2 (by decide) (by decide) (by decide)

/-- C6: for even positive `model_dimension` and positive `max_length`,
row 0 of the table alternates `sin 0 = 0` in even columns and `cos 0 = 1`
in odd columns, and every entry of the table lies in `[-1, 1]` — in the
real-number model of the float tensor this is the no-NaN/no-Inf guarantee:
every entry is an honest real bounded by 1 in absolute value. -/
theorem peInit_row_zero_and_bounded (d_model max_len : ℕ)
    (hd : 0 < d_model) (he : d_model % 2 = 0) (hm : 0 < max_len) :
    (∀ i, i < d_model / 2 →
      (peInit d_model max_len).pe 0 (2 * i) = 0 ∧
      (peInit d_model max_len).pe 0 (2 * i + 1) = 1) ∧
    (∀ p j, p < max_len → j < d_model →
      |(peInit d_model max_len).pe p j| ≤ 1) := by
  constructor
  · intro i hi
    constructor
    · show peEntry d_model 0 (2 * i) = 0
      rw [peEntry, if_pos (by omega)]
      simp
    · show peEntry d_model 0 (2 * i + 1) = 1
      rw [peEntry, if_neg (by omega)]
      simp
  · intro p j hp hj
    show |peEntry d_model p j| ≤ 1
    rw [peEntry]
    split_ifs
    · exact abs_le.mpr ⟨Real.neg_one_le_sin _, Real.sin_le_one _⟩
    · exact abs_le.mpr ⟨Real.neg_one_le_cos _, Real.cos_le_one _⟩

/-- Concrete instance of `peInit_row_zero_and_bounded` at
`d_model = 2`, `max_len = 1`. -/
theorem peInit_row_zero_and_bounded_witness :
    (∀ i, i < 2 / 2 →
      (peInit 2 1).pe 0 (2 * i) = 0 ∧ (peInit 2 1).pe 0 (2 * i + 1) = 1) ∧
    (∀ p j, p < 1 → j < 2 → |(peInit 2 1).pe p j| ≤ 1) :=
  peInit_row_zero_and_bounded 2 1 (by norm_num) (by norm_num) (by norm_num)

/-- The direct-power formulation of the scaling factor:
`10000 ^ (-(2i / d_model))` as a real power, with no intermediate
exponential-of-logarithm. -/
noncomputable def divTermDirect (d_model i : ℕ) : ℝ :=
  (10000 : ℝ) ^ (-((2 * (i : ℝ)) / (d_model : ℝ)))

/-- The positional-encoding table written with the direct power instead of
the exponent-of-log scaling factor. -/
noncomputable def peEntryDirect (d_model p j : ℕ) : ℝ :=
  if j % 2 = 0 then Real.sin ((p : ℝ) * divTermDirect d_model (j / 2))
  else Real.cos ((p : ℝ) * divTermDirect d_model (j / 2))

/-- C7: the exponent-of-log scaling factor
`exp(2i * (-log 10000) / d_model)` equals the direct power
`10000 ^ (-(2i / d_model))` for every index `i < d_model / 2`, so the two
formulations produce the same table entry at every position and column. -/
theorem div_term_eq_direct_power (d_model : ℕ)
    (hd : 0 < d_model) (he : d_model % 2 = 0) :
    (∀ i, i < d_model / 2 → div_term d_model i = divTermDirect d_model i) ∧
    (∀ p j, peEntry d_model p j = peEntryDirect d_model p j) := by
  constructor
  · intro i hi
    rw [divTermDirect]
    exact div_term_eq_rpow d_model i
  · intro p j
    rw [peEntry, peEntryDirect, divTermDirect, ← div_term_eq_rpow]

/-- Concrete instance of `div_term_eq_direct_power` at `d_model = 4`. -/
theorem div_term_eq_direct_power_witness :
    (∀ i, i < 4 / 2 → div_term 4 i = divTermDirect 4 i) ∧
    (∀ p j, peEntry 4 p j = peEntryDirect 4 p j) :=
  div_term_eq_direct_power 4 (by norm_num) (by norm_num)

/-- Modelled from the spec: row-wise softmax with the row maximum
subtracted before exponentiating ("for numerical stability subtract each
row's max before exponentiating").  The notebook delegates attention to
`nn.TransformerEncoderLayer`, so this operation has no code under src/. -/
noncomputable def softmax {m : ℕ} (v : Fin (m + 1) → ℝ) : Fin (m + 1) → ℝ :=
  fun j =>
    Real.exp (v j - Finset.univ.sup' Finset.univ_nonempty v) /
      ∑ k, Real.exp (v k - Finset.univ.sup' Finset.univ_nonempty v)

/-- Modelled from the spec: `scores = Q·K^T / sqrt(d_k)`. -/
noncomputable def attnScores {n m dk : ℕ}
    (Q : Fin n → Fin dk → ℝ) (K : Fin m → Fin dk → ℝ) :
    Fin n → Fin m → ℝ :=
  fun i j => (∑ t, Q i t * K j t) / Real.sqrt dk

/-- Modelled from the spec: `scaled_dot_product_attention(Q, K, V)` returns
`(output, weights)` with `weights = row-wise softmax(scores)` and
`output = weights·V`.  Key/value sequence length is `m + 1` (a softmax row
must be non-empty). -/
noncomputable def scaledDotProductAttention {n m dk dv : ℕ}
    (Q : Fin n → Fin dk → ℝ) (K : Fin (m + 1) → Fin dk → ℝ)
    (V : Fin (m + 1) → Fin dv → ℝ) :
    (Fin n → Fin dv → ℝ) × (Fin n → Fin (m + 1) → ℝ) :=
  let weights := fun i => softmax (attnScores Q K i)
  (fun i t => ∑ j, weights i j * V j t, weights)

lemma softmax_denom_pos {m : ℕ} (v : Fin (m + 1) → ℝ) :
    0 < ∑ k, Real.exp (v k - Finset.univ.sup' Finset.univ_nonempty v) :=
  Finset.sum_pos (fun k _ => Real.exp_pos _) Finset.univ_nonempty

lemma softmax_nonneg {m : ℕ} (v : Fin (m + 1) → ℝ) (j : Fin (m + 1)) :
    0 ≤ softmax v j := by
  simp only [softmax]
  exact div_nonneg (Real.exp_pos _).le (softmax_denom_pos v).le

lemma softmax_le_one {m : ℕ} (v : Fin (m + 1) → ℝ) (j : Fin (m + 1)) :
    softmax v j ≤ 1 := by
  simp only [softmax]
  rw [div_le_one (softmax_denom_pos v)]
  exact @Finset.single_le_sum (Fin (m + 1)) ℝ _
    (fun k => Real.exp (v k - Finset.univ.sup' Finset.univ_nonempty v))
    Finset.univ (fun k _ => (Real.exp_pos _).le) j (Finset.mem_univ j)

lemma softmax_sum_one {m : ℕ} (v : Fin (m + 1) → ℝ) :
    ∑ j, softmax v j = 1 := by
  simp only [softmax]
  rw [← Finset.sum_div]
  exact div_self (softmax_denom_pos v).ne'

/-- C5: the attention weight matrix returned by scaled dot-product
attention is row-stochastic: every entry lies in `[0, 1]` and every row
sums to 1. -/
theorem attention_weights_row_stochastic (n m dk dv : ℕ)
    (Q : Fin n → Fin dk → ℝ) (K : Fin (m + 1) → Fin dk → ℝ)
    (V : Fin (m + 1) → Fin dv → ℝ) :
    ∀ i, (∀ j, 0 ≤ (scaledDotProductAttention Q K V).2 i j ∧
            (scaledDotProductAttention Q K V).2 i j ≤ 1) ∧
      ∑ j, (scaledDotProductAttention Q K V).2 i j = 1 := by
  intro i
  exact ⟨fun j => ⟨softmax_nonneg (attnScores Q K i) j,
      softmax_le_one (attnScores Q K i) j⟩,
    softmax_sum_one (attnScores Q K i)⟩

/-- The `TransformerModel` configuration that matters for shape behaviour:
vocabulary size, model dimension, and the `max_len` of its positional
encoder. -/
structure TransformerModel where
  ntoken : ℕ
  d_model : ℕ
  pos_max_len : ℕ

/-- `TransformerModel.__init__(ntoken, d_model, nhead, nhid, nlayers)`: the
positional encoder is built as `PositionalEncoding(d_model)`, i.e. with the
default `max_len = 5000`.  `nhead`, `nhid`, `nlayers` only parametrise the
framework encoder layers and do not affect shapes or definedness. -/
def TransformerModel.build (ntoken d_model nhead nhid nlayers : ℕ) :
    TransformerModel :=
  ⟨ntoken, d_model, 5000⟩

/-- PyTorch broadcasting of one dimension: sizes are compatible when they
are equal or one of them is 1 (a size-1 side is stretched to the other). -/
def broadcastDim (a b : ℕ) : Option ℕ :=
  if a = b then some a
  else if a = 1 then some b
  else if b = 1 then some a
  else none

/-- Number of sequence positions produced by
`x + self.pe[:x.size(0), :]` for an input with `L` positions: the slice has
`min L max_len` rows and the addition broadcasts them against `L`, or fails. -/
def peAddRows (max_len L : ℕ) : Option ℕ :=
  broadcastDim L (min L max_len)

/-- `TransformerModel.forward(src, src_mask)` at the shape level, in source
order: the embedding requires every token id below `ntoken` (framework
`nn.Embedding` lookup, out-of-range ids fail); the positional encoder adds
the truncated table under broadcasting; the framework encoder (modelled
from the spec, since `nn.TransformerEncoder` is not under src/) preserves
the `(L, B, d_model)` shape and requires a square `(L, L)` mask; the final
linear layer maps the feature dimension to `ntoken`. -/
def TransformerModel.forwardShape (M : TransformerModel) (L B : ℕ)
    (src : Fin L → Fin B → ℕ) (maskRows maskCols : ℕ) :
    Option (ℕ × ℕ × ℕ) :=
  if ∀ p b, src p b < M.ntoken then
    match peAddRows M.pos_max_len L with
    | some L2 =>
        if maskRows = L2 ∧ maskCols = L2 then some (L2, B, M.ntoken)
        else none
    | none => none
  else none

/-- C9: the model always constructs its positional encoder with the default
`max_len = 5000`; its forward pass succeeds for every admissible input of
length `L ≤ 5000` and fails (no result) for every input of length
`L > 5000`, because the truncated 5000-row table cannot broadcast against
`L` positions. -/
theorem transformer_forward_bounded_by_5000
    (ntoken d_model nhead nhid nlayers : ℕ) :
    (TransformerModel.build ntoken d_model nhead nhid nlayers).pos_max_len
        = 5000 ∧
    (∀ L B (src : Fin L → Fin B → ℕ) maskRows maskCols, 5000 < L →
      (TransformerModel.build ntoken d_model nhead nhid nlayers).forwardShape
        L B src maskRows maskCols = none) ∧
    (∀ L B (src : Fin L → Fin B → ℕ), L ≤ 5000 →
      (∀ p b, src p b < ntoken) →
      ((TransformerModel.build ntoken d_model nhead nhid
        nlayers).forwardShape L B src L L).isSome = true) := by
  refine ⟨rfl, ?_, ?_⟩
  · intro L B src maskRows maskCols hL
    simp only [TransformerModel.forwardShape, TransformerModel.build]
    have hrows : peAddRows 5000 L = none := by
      rw [peAddRows, broadcastDim]
      rw [if_neg (by omega), if_neg (by omega), if_neg (by omega)]
    rw [hrows]
    split_ifs with h
    · rfl
    · rfl
  · intro L B src hL hids
    simp only [TransformerModel.forwardShape, TransformerModel.build]
    have hrows : peAddRows 5000 L = some L := by
      rw [peAddRows, Nat.min_eq_left hL, broadcastDim, if_pos rfl]
    rw [if_pos hids, hrows]
    show (if L = L ∧ L = L then some (L, B, ntoken) else none).isSome = true
    rw [if_pos ⟨rfl, rfl⟩]
    rfl

/-- Concrete instance of `transformer_forward_bounded_by_5000`: the model
built with `ntoken = 10`, `d_model = 4` has encoder limit 5000, rejects a
length-5001 input, and accepts a length-3 input. -/
theorem transformer_forward_bounded_by_5000_witness :
    (TransformerModel.build 10 4 2 8 2).pos_max_len = 5000 ∧
    (TransformerModel.build 10 4 2 8 2).forwardShape 5001 1
        (fun _ _ => 0) 5001 5001 = none ∧
    ((TransformerModel.build 10 4 2 8 2).forwardShape 3 1
        (fun _ _ => 0) 3 3).isSome = true := by
  have h := transformer_forward_bounded_by_5000 10 4 2 8 2
  exact ⟨h.1,
    h.2.1 5001 1 (fun _ _ => 0) 5001 5001 (by norm_num),
    h.2.2 3 1 (fun _ _ => 0) (by norm_num) (fun p b => by norm_num)⟩

/-- C10 counterexample: the claim promises an output of shape
`(L, B, ntoken)` for every input shape, but at `L = 5001`, `B = 2`,
`ntoken = 7` (all token ids 0, square mask) the forward pass returns no
result at all: the 5000-row table slice cannot broadcast against 5001
positions. -/
theorem transformer_forward_fails_at_5001 :
    (TransformerModel.build 7 4 2 8 2).forwardShape 5001 2
      (fun _ _ => 0) 5001 5001 = none := by
  simp only [TransformerModel.forwardShape, TransformerModel.build]
  have hrows : peAddRows 5000 5001 = none := by decide
  rw [hrows]
  split_ifs with h
  · rfl
  · rfl

/-- C10 amended: for every input token tensor of shape `(L, B)` with
`L ≤ 5000` and token ids in `[0, ntoken)`, and an `(L, L)` mask,
`TransformerModel.forward` returns a tensor of shape
`(L, B, ntoken)`. -/
theorem transformer_forward_output_shape
    (ntoken d_model nhead nhid nlayers L B : ℕ) (src : Fin L → Fin B → ℕ)
    (hL : L ≤ 5000) (hids : ∀ p b, src p b < ntoken) :
    (TransformerModel.build ntoken d_model nhead nhid nlayers).forwardShape
      L B src L L = some (L, B, ntoken) := by
  simp only [TransformerModel.forwardShape, TransformerModel.build]
  have hrows : peAddRows 5000 L = some L := by
    rw [peAddRows, Nat.min_eq_left hL, broadcastDim, if_pos rfl]
  rw [if_pos hids, hrows]
  show (if L = L ∧ L = L then some (L, B, ntoken) else none)
    = some (L, B, ntoken)
  rw [if_pos ⟨rfl, rfl⟩]

/-- Concrete instance of `transformer_forward_output_shape` at
`ntoken = 9`, `L = 10`, `B = 3`, all ids 5. -/
theorem transformer_forward_output_shape_witness :
    (TransformerModel.build 9 4 2 8 2).forwardShape 10 3
      (fun _ _ => 5) 10 10 = some (10, 3, 9) :=
  transformer_forward_output_shape 9 4 2 8 2 10 3 (fun _ _ => 5)
    (by norm_num) (fun _ _ => by norm_num)

end AttentionMath
